import Mathlib

/-!
Verification of the ESP_EYE media-capture core (recorder.c, file_server.c).

The development shallowly embeds the camera node's capture engine:
  * the AVI/MJPEG container muxer (`avi_header`, `finalize_avi`),
  * the buffered recorder (`write_to_buffer`, `flush_buffer_to_sd`,
    `processFrame` for the per-frame body of `video_record_task`),
  * the camera arbiter state machine (`recorder_capture_enter`,
    `recorder_start_video`, `video_record_task_exit`, `recorder_stop_video`),
  * the clock-sync / trigger-validation HTTP handlers
    (`time_post_handler`, `time_get_handler`, `picture_post_handler`).

Machine integers are modelled as `Nat` with explicit `% 2 ^ 32` / `% 2 ^ 64`
where the C code computes in `uint32_t` / `uint64_t`, and as `Int` with
explicit wrapping where the code computes in `int64_t`.  Byte buffers and
files are `List Nat` (each element one byte).
-/

/-! ## Little-endian serialisation primitives (static_write_u32 / _u16 / _fourcc) -/

/-- Bytes of a 32-bit little-endian value, as written by `static_write_u32`
and `write_u32` (the value is truncated to 32 bits by byte extraction). -/
def le32 (v : Nat) : List Nat :=
  [v % 256, v / 256 % 256, v / 65536 % 256, v / 16777216 % 256]

/-- Bytes of a 16-bit little-endian value, as written by `static_write_u16`. -/
def le16 (v : Nat) : List Nat :=
  [v % 256, v / 256 % 256]

/- Four-character tags as written by `static_write_fourcc`: the ASCII byte
values of the tag characters. -/

/-- ASCII bytes of the tag RIFF. -/
def tagRIFF : List Nat := [82, 73, 70, 70]

/-- ASCII bytes of the tag AVI followed by a space. -/
def tagAVI : List Nat := [65, 86, 73, 32]

/-- ASCII bytes of the tag LIST. -/
def tagLIST : List Nat := [76, 73, 83, 84]

/-- ASCII bytes of the tag hdrl. -/
def tagHdrl : List Nat := [104, 100, 114, 108]

/-- ASCII bytes of the tag avih. -/
def tagAvih : List Nat := [97, 118, 105, 104]

/-- ASCII bytes of the tag strl. -/
def tagStrl : List Nat := [115, 116, 114, 108]

/-- ASCII bytes of the tag strh. -/
def tagStrh : List Nat := [115, 116, 114, 104]

/-- ASCII bytes of the tag vids. -/
def tagVids : List Nat := [118, 105, 100, 115]

/-- ASCII bytes of the tag MJPG. -/
def tagMJPG : List Nat := [77, 74, 80, 71]

/-- ASCII bytes of the tag strf. -/
def tagStrf : List Nat := [115, 116, 114, 102]

/-- ASCII bytes of the tag movi. -/
def tagMovi : List Nat := [109, 111, 118, 105]

/-- ASCII bytes of the tag 00dc. -/
def tag00dc : List Nat := [48, 48, 100, 99]

/-- ASCII bytes of the tag idx1. -/
def tagIdx1 : List Nat := [105, 100, 120, 49]

/-- Read back a 32-bit little-endian value at byte offset `off` of a file. -/
def readLe32 (l : List Nat) (off : Nat) : Nat :=
  l.getD off 0 + 256 * l.getD (off + 1) 0 + 65536 * l.getD (off + 2) 0 +
    16777216 * l.getD (off + 3) 0

/-! ## The AVI header (static_write_avi_header_to_buffer) -/

/-- The 224-byte AVI header written into the staging buffer at session start,
byte for byte as produced by `static_write_avi_header_to_buffer`. -/
def avi_header (width height fps : Nat) : List Nat :=
  tagRIFF ++ le32 0 ++ tagAVI ++
  tagLIST ++ le32 192 ++ tagHdrl ++
  tagAvih ++ le32 56 ++
    le32 (1000000 / fps) ++ le32 0 ++ le32 0 ++ le32 16 ++
    le32 0 ++ le32 0 ++ le32 1 ++ le32 0 ++
    le32 width ++ le32 height ++ le32 0 ++ le32 0 ++ le32 0 ++ le32 0 ++
  tagLIST ++ le32 116 ++ tagStrl ++
  tagStrh ++ le32 56 ++ tagVids ++ tagMJPG ++
    le32 0 ++ le16 0 ++ le16 0 ++ le32 0 ++ le32 1 ++ le32 fps ++
    le32 0 ++ le32 0 ++ le32 0 ++ le32 0 ++ le32 0 ++
    le16 0 ++ le16 0 ++ le16 width ++ le16 height ++
  tagStrf ++ le32 40 ++
    le32 40 ++ le32 width ++ le32 height ++ le16 1 ++ le16 24 ++ tagMJPG ++
    le32 (width * height * 3) ++ le32 0 ++ le32 0 ++ le32 0 ++ le32 0 ++
  tagLIST ++ le32 0 ++ tagMovi

set_option maxRecDepth 8000 in
theorem avi_header_length (width height fps : Nat) :
    (avi_header width height fps).length = 224 := by
  simp only [avi_header, tagRIFF, tagAVI, tagLIST, tagHdrl, tagAvih, tagStrl, tagStrh,
    tagVids, tagMJPG, tagStrf, tagMovi, le32, le16, List.cons_append, List.nil_append]
  rfl

set_option maxRecDepth 8000 in
set_option maxHeartbeats 2000000 in
/-- C10: For every width, height, and nonzero fps, the container header is
exactly 224 bytes, so the movi payload begins at offset 224, and the four
placeholder fields patched by `finalize_avi` lie at fixed offsets: RIFF size
at 4, total frame count at 48, stream length at 140, movi LIST size at 216
(each written as a zero placeholder, with the movi tag at 220). -/
theorem avi_header_layout (width height fps : Nat) (hfps : 0 < fps) :
    (avi_header width height fps).length = 224 ∧
    ((avi_header width height fps).drop 4).take 4 = le32 0 ∧
    ((avi_header width height fps).drop 48).take 4 = le32 0 ∧
    ((avi_header width height fps).drop 140).take 4 = le32 0 ∧
    ((avi_header width height fps).drop 216).take 4 = le32 0 ∧
    ((avi_header width height fps).drop 220).take 4 = tagMovi := by
  refine ⟨avi_header_length width height fps, ?_, ?_, ?_, ?_, ?_⟩ <;>
  · simp only [avi_header, tagRIFF, tagAVI, tagLIST, tagHdrl, tagAvih, tagStrl, tagStrh,
      tagVids, tagMJPG, tagStrf, tagMovi, le32, le16, List.cons_append, List.nil_append]
    rfl

/-- Witness for `avi_header_layout` at the primary XGA configuration. -/
theorem avi_header_layout_witness :
    0 < 10 ∧
    ((avi_header 1024 768 10).length = 224 ∧
     ((avi_header 1024 768 10).drop 4).take 4 = le32 0 ∧
     ((avi_header 1024 768 10).drop 48).take 4 = le32 0 ∧
     ((avi_header 1024 768 10).drop 140).take 4 = le32 0 ∧
     ((avi_header 1024 768 10).drop 216).take 4 = le32 0 ∧
     ((avi_header 1024 768 10).drop 220).take 4 = tagMovi) :=
  ⟨by decide, avi_header_layout 1024 768 10 (by decide)⟩

/-! ## The buffered recorder (video_state, write_to_buffer, flush_buffer_to_sd,
the per-frame body of video_record_task, finalize_avi) -/

/-- One entry of the frame index (`avi_index_entry_t`): byte offset within the
movi data and chunk payload size, both `uint32_t`. -/
structure AviIndexEntry where
  offset : Nat
  size : Nat
deriving DecidableEq, Repr

/-- The recording state (`video_state` plus the local `frame_offset` of
`video_record_task`). The staging buffer is the byte list `buffer` (its length
is the C `buffer_pos`); `file` is the bytes written to the SD file so far. -/
structure RecState where
  buffer : List Nat
  buffer_size : Nat
  header_size : Nat
  file : List Nat
  file_created : Bool
  frame_count : Nat
  movi_size : Nat
  frame_offset : Nat
  index : List AviIndexEntry
deriving DecidableEq, Repr

/-- `write_to_buffer`: append `data` at the buffer write position unless that
would exceed the physical capacity, in which case fail and leave the buffer
unchanged. -/
def write_to_buffer (st : RecState) (data : List Nat) : Option RecState :=
  if st.buffer.length + data.length > st.buffer_size then none
  else some { st with buffer := st.buffer ++ data }

/-- `BUFFER_FLUSH_THRESHOLD`: 70% of the staging-buffer capacity. -/
def BUFFER_FLUSH_THRESHOLD (st : RecState) : Nat := st.buffer_size * 70 / 100

/-- `flush_buffer_to_sd` (I/O success case): on the first flush create the
file and write the header region of the buffer first; then write everything
after the header and reset the buffer write position to just after the
header. -/
def flush_buffer_to_sd (st : RecState) : RecState :=
  let st1 := if st.file_created then st
             else { st with file := st.buffer.take st.header_size, file_created := true }
  let data_size := st1.buffer.length - st1.header_size
  if data_size > 0 then
    { st1 with file := st1.file ++ st1.buffer.drop st1.header_size,
               buffer := st1.buffer.take st1.header_size }
  else st1

/-- The index store step of `video_record_task`: record (frame_offset, size)
if fewer than 1800 entries are present, else silently drop the entry. -/
def storeIndexEntry (st : RecState) (len : Nat) : RecState :=
  if st.index.length < 1800 then
    { st with index := st.index ++ [⟨st.frame_offset, len % 2 ^ 32⟩] }
  else st

/-- One iteration of the `video_record_task` loop body on a captured frame
`fb` (given as its JPEG byte list), in the case where the capture succeeded
and any triggered flush succeeds.  The three `write_to_buffer` calls (with
data lengths 8, `fb->len` and 1) are inlined with their capacity checks; a
failed buffer write logs and `continue`s, so the frame is dropped but the
session goes on (a failed payload write leaves the already-written 8-byte
chunk header in the buffer, and the ignored pad-byte write failure drops only
the pad byte). -/
def processFrame (st : RecState) (fb : List Nat) : RecState :=
  if st.buffer.length + 8 > st.buffer_size then st
  else
    let st1 := { st with buffer := st.buffer ++ tag00dc ++ le32 fb.length }
    if st1.buffer.length + fb.length > st1.buffer_size then st1
    else
      let st2 := { st1 with buffer := st1.buffer ++ fb }
      let st3 := if fb.length % 2 = 1 then
                   (if st2.buffer.length + 1 > st2.buffer_size then st2
                    else { st2 with buffer := st2.buffer ++ [0] })
                 else st2
      let st4 := storeIndexEntry st3 fb.length
      let chunk_size := (8 + fb.length + fb.length % 2) % 2 ^ 32
      let st5 := { st4 with
                   movi_size := (st4.movi_size + chunk_size) % 2 ^ 32,
                   frame_offset := (st4.frame_offset + chunk_size) % 2 ^ 32,
                   frame_count := (st4.frame_count + 1) % 2 ^ 32 }
      if BUFFER_FLUSH_THRESHOLD st5 ≤ st5.buffer.length then flush_buffer_to_sd st5
      else st5

/-- The `write_to_buffer` helper fails exactly when the write would push the
buffer position past the physical capacity; `processFrame` inlines this
check at each of its three call sites (data lengths 8, `fb->len`, 1). -/
theorem write_to_buffer_none_iff (st : RecState) (data : List Nat) :
    write_to_buffer st data = none ↔ st.buffer.length + data.length > st.buffer_size := by
  unfold write_to_buffer
  by_cases h : st.buffer.length + data.length > st.buffer_size <;> simp [h]

/-- The recording loop of `video_record_task` over the frames captured before
the duration elapsed (or the stop flag was observed). -/
def video_record_task (st : RecState) (fs : List (List Nat)) : RecState :=
  fs.foldl processFrame st

/-- The recording state right after `recorder_start_video` wrote the AVI
header into the freshly allocated 3.5 MB staging buffer (fps is fixed at
10). -/
def recorder_start_video_state (w h : Nat) : RecState :=
  let hdr := avi_header w h 10
  { buffer := hdr, buffer_size := 3584 * 1024, header_size := hdr.length,
    file := [], file_created := false, frame_count := 0, movi_size := 0,
    frame_offset := 0, index := [] }

/-- The end-of-task write-out before finalize: if periodic flushes created the
file already, append the bytes still in the buffer after the header;
otherwise write the entire buffer to a fresh file.  (Mid-recording this same
expression is the abstract media content: file contents plus pending buffered
frame data.) -/
def task_end_file (st : RecState) : List Nat :=
  if st.file_created then st.file ++ st.buffer.drop st.header_size else st.buffer

/-- The serialised idx1 section written by `finalize_avi`: the idx1 tag, the
index byte size, then per entry the 00dc tag, flag 0x10, offset and size. -/
def avi_index_bytes (index : List AviIndexEntry) : List Nat :=
  tagIdx1 ++ le32 (index.length * 16) ++
    (index.map (fun e => tag00dc ++ le32 16 ++ le32 e.offset ++ le32 e.size)).flatten

/-- Overwrite the bytes of `l` at offset `off` with `b` (fseek + fwrite on a
file whose length is at least `off + b.length`). -/
def write_at (l : List Nat) (off : Nat) (b : List Nat) : List Nat :=
  l.take off ++ b ++ l.drop (off + b.length)

/-- `finalize_avi`: append the idx1 index at the end of the file, then patch
the four placeholder fields in place: RIFF size at offset 4 (file length
minus 8), total frames at 48, stream length at 140, and movi LIST size at 216
(movi data size + 4 for the movi tag). -/
def finalize_avi (file : List Nat) (frame_count movi_size : Nat)
    (index : List AviIndexEntry) : List Nat :=
  let f1 := file ++ avi_index_bytes index
  let file_end := f1.length
  let f2 := write_at f1 4 (le32 (file_end - 8))
  let f3 := write_at f2 48 (le32 frame_count)
  let f4 := write_at f3 140 (le32 frame_count)
  write_at f4 216 (le32 (movi_size + 4))

/-- A whole recording session: header written at start, every captured frame
processed by the recording loop, then the end-of-task write-out and
`finalize_avi`. -/
def recordSession (w h : Nat) (fs : List (List Nat)) : List Nat :=
  let st := video_record_task (recorder_start_video_state w h) fs
  finalize_avi (task_end_file st) st.frame_count st.movi_size st.index

/-- All three buffer writes of every frame succeed (no frame is dropped and
no partial chunk is left behind): each frame's 8-byte chunk header, payload
and optional pad byte fit in the staging buffer when they are attempted. -/
def noDrops (st : RecState) : List (List Nat) → Bool
  | [] => true
  | f :: fs =>
    (st.buffer.length + 8 + f.length + f.length % 2 ≤ st.buffer_size) &&
      noDrops (processFrame st f) fs

/-- The on-disk chunk of one frame: 00dc tag, little-endian payload length,
payload, and a zero pad byte when the payload length is odd. -/
def chunkBytes (f : List Nat) : List Nat :=
  tag00dc ++ le32 f.length ++ f ++ (if f.length % 2 = 1 then [0] else [])

/-- The movi byte size of one frame chunk: 8-byte chunk header + payload +
pad. -/
def csize (f : List Nat) : Nat := 8 + f.length + f.length % 2

/-- Concatenation of the chunks of a frame list, in capture order. -/
def chunksConcat (fs : List (List Nat)) : List Nat := (fs.map chunkBytes).flatten

/-- Total movi byte size of a frame list. -/
def sumCsize (fs : List (List Nat)) : Nat := (fs.map csize).sum

/-- The index entries produced for a frame list starting at movi offset `off`
with `room` free index slots. -/
def indexFrom (off room : Nat) : List (List Nat) → List AviIndexEntry
  | [] => []
  | f :: fs =>
    if room = 0 then []
    else ⟨off, f.length % 2 ^ 32⟩ :: indexFrom ((off + csize f) % 2 ^ 32) (room - 1) fs

/-! ## Helper lemmas about the recorder -/

theorem chunkBytes_length (f : List Nat) : (chunkBytes f).length = csize f := by
  by_cases h : f.length % 2 = 1 <;>
    simp [chunkBytes, csize, tag00dc, le32, h] <;> omega

theorem flush_fields (st : RecState) :
    (flush_buffer_to_sd st).buffer_size = st.buffer_size ∧
    (flush_buffer_to_sd st).header_size = st.header_size ∧
    (flush_buffer_to_sd st).frame_count = st.frame_count ∧
    (flush_buffer_to_sd st).movi_size = st.movi_size ∧
    (flush_buffer_to_sd st).frame_offset = st.frame_offset ∧
    (flush_buffer_to_sd st).index = st.index ∧
    (flush_buffer_to_sd st).file_created = true := by
  unfold flush_buffer_to_sd
  by_cases hc : st.file_created <;> by_cases hd : 0 < st.buffer.length - st.header_size <;>
    simp [hc, hd]

theorem flush_buffer (st : RecState) (hhs : st.header_size ≤ st.buffer.length) :
    (flush_buffer_to_sd st).buffer = st.buffer.take st.header_size := by
  unfold flush_buffer_to_sd
  by_cases hc : st.file_created <;> by_cases hd : 0 < st.buffer.length - st.header_size <;>
    simp [hc, hd]
  all_goals omega

theorem flush_media (st : RecState) (hhs : st.header_size ≤ st.buffer.length) :
    task_end_file (flush_buffer_to_sd st) = task_end_file st := by
  unfold flush_buffer_to_sd task_end_file
  by_cases hc : st.file_created <;> by_cases hd : 0 < st.buffer.length - st.header_size <;>
    simp [hc, hd]

/-- Invariant maintained by the recording loop between iterations (in the
absence of dropped writes): constants as initialised by
`recorder_start_video`, the buffer holds the header plus less than a
threshold's worth of frame data, and the `uint32_t` accumulators agree. -/
def GoodCore (st : RecState) : Prop :=
  st.buffer_size = 3584 * 1024 ∧ st.header_size = 224 ∧
  224 ≤ st.buffer.length ∧ st.buffer.length < BUFFER_FLUSH_THRESHOLD st ∧
  st.frame_offset = st.movi_size ∧ st.movi_size < 2 ^ 32 ∧ st.frame_count < 2 ^ 32
set_option maxHeartbeats 2000000 in
theorem processFrame_spec (st : RecState) (f : List Nat) (hG : GoodCore st)
    (hfit : st.buffer.length + 8 + f.length + f.length % 2 ≤ st.buffer_size) :
    GoodCore (processFrame st f) ∧
    (processFrame st f).movi_size = (st.movi_size + csize f) % 2 ^ 32 ∧
    (processFrame st f).frame_count = (st.frame_count + 1) % 2 ^ 32 ∧
    (processFrame st f).index =
      st.index ++ (if st.index.length < 1800 then [⟨st.frame_offset, f.length % 2 ^ 32⟩] else []) ∧
    task_end_file (processFrame st f) = task_end_file st ++ chunkBytes f ∧
    (processFrame st f).buffer.length =
      (if BUFFER_FLUSH_THRESHOLD st ≤ st.buffer.length + csize f then 224
       else st.buffer.length + csize f) ∧
    (processFrame st f).buffer_size = st.buffer_size := by
  obtain ⟨hbs, hhs, hblen, hthr, hoff, hmovi, hfc⟩ := hG
  have e1 : (le32 f.length).length = 4 := by simp [le32]
  have e0 : (tag00dc : List Nat).length = 4 := by simp [tag00dc]
  have hpf : processFrame st f =
      (let st5 : RecState :=
        { st with
          buffer := st.buffer ++ chunkBytes f,
          index := if st.index.length < 1800
                   then st.index ++ [⟨st.frame_offset, f.length % 2 ^ 32⟩] else st.index,
          movi_size := (st.movi_size + (8 + f.length + f.length % 2) % 2 ^ 32) % 2 ^ 32,
          frame_offset := (st.frame_offset + (8 + f.length + f.length % 2) % 2 ^ 32) % 2 ^ 32,
          frame_count := (st.frame_count + 1) % 2 ^ 32 }
       if BUFFER_FLUSH_THRESHOLD st5 ≤ st5.buffer.length then flush_buffer_to_sd st5
       else st5) := by
    by_cases hpar : f.length % 2 = 1 <;>
      simp only [processFrame, storeIndexEntry, hpar, if_true, if_false, ite_true, ite_false,
        chunkBytes, List.append_assoc, List.append_nil] <;>
      split_ifs <;>
      first
        | rfl
        | (exfalso; simp only [List.length_append, e0, e1] at *; omega)
  rw [hpf]
  set st5 : RecState :=
    { st with
      buffer := st.buffer ++ chunkBytes f,
      index := if st.index.length < 1800
               then st.index ++ [⟨st.frame_offset, f.length % 2 ^ 32⟩] else st.index,
      movi_size := (st.movi_size + (8 + f.length + f.length % 2) % 2 ^ 32) % 2 ^ 32,
      frame_offset := (st.frame_offset + (8 + f.length + f.length % 2) % 2 ^ 32) % 2 ^ 32,
      frame_count := (st.frame_count + 1) % 2 ^ 32 } with hst5
  have hb5 : st5.buffer.length = st.buffer.length + csize f := by
    rw [hst5]; simp [List.length_append, chunkBytes_length]
  have hthr5 : BUFFER_FLUSH_THRESHOLD st5 = BUFFER_FLUSH_THRESHOLD st := rfl
  have hhs5 : st5.header_size = st.header_size := rfl
  have hidxgoal : st5.index =
      st.index ++ (if st.index.length < 1800 then [⟨st.frame_offset, f.length % 2 ^ 32⟩] else []) := by
    rw [hst5]; by_cases hidx : st.index.length < 1800 <;> simp [hidx]
  have hmedia5 : task_end_file st5 = task_end_file st ++ chunkBytes f := by
    rw [hst5]; unfold task_end_file
    by_cases hc : st.file_created <;> simp only [hc, if_true, if_false, ite_true, ite_false]
    · rw [List.drop_append_of_le_length (by omega), List.append_assoc]
    · rfl
  have hmovi5 : st5.movi_size = (st.movi_size + csize f) % 2 ^ 32 := by
    rw [hst5]; show (st.movi_size + (8 + f.length + f.length % 2) % 2 ^ 32) % 2 ^ 32 = _
    unfold csize; omega
  by_cases hflush : BUFFER_FLUSH_THRESHOLD st5 ≤ st5.buffer.length
  · rw [if_pos hflush]
    have hhsb : st5.header_size ≤ st5.buffer.length := by rw [hhs5, hb5, hhs]; omega
    have hfb := flush_buffer st5 hhsb
    have hff := flush_fields st5
    have hfblen : (flush_buffer_to_sd st5).buffer.length = 224 := by
      rw [hfb, hhs5, hhs, List.length_take, hb5]
      omega
    refine ⟨⟨?_, ?_, ?_, ?_, ?_, ?_, ?_⟩, ?_, ?_, ?_, ?_, ?_, ?_⟩
    · rw [hff.1]; exact hbs
    · rw [hff.2.1, hhs5, hhs]
    · rw [hfblen]
    · rw [hfblen]
      show 224 < (flush_buffer_to_sd st5).buffer_size * 70 / 100
      rw [hff.1]
      show 224 < st5.buffer_size * 70 / 100
      rw [hst5]
      show 224 < st.buffer_size * 70 / 100
      rw [hbs]; norm_num
    · rw [hff.2.2.2.2.1, hff.2.2.2.1, hst5]
      show (st.frame_offset + _) % 2 ^ 32 = (st.movi_size + _) % 2 ^ 32
      rw [hoff]
    · rw [hff.2.2.2.1, hmovi5]; omega
    · rw [hff.2.2.1, hst5]
      show (st.frame_count + 1) % 2 ^ 32 < 2 ^ 32
      omega
    · rw [hff.2.2.2.1, hmovi5]
    · rw [hff.2.2.1]
    · rw [hff.2.2.2.2.2.1, hidxgoal]
    · rw [flush_media st5 hhsb, hmedia5]
    · rw [hfblen, hb5] at *
      rw [if_pos (by rw [← hthr5]; omega)]
    · rw [hff.1]
  · rw [if_neg hflush]
    refine ⟨⟨?_, ?_, ?_, ?_, ?_, ?_, ?_⟩, ?_, ?_, ?_, ?_, ?_, ?_⟩
    · exact hbs
    · rw [hhs5, hhs]
    · rw [hb5]; omega
    · rw [hthr5] at hflush ⊢; omega
    · rw [hst5]
      show (st.frame_offset + _) % 2 ^ 32 = (st.movi_size + _) % 2 ^ 32
      rw [hoff]
    · rw [hmovi5]; omega
    · rw [hst5]
      show (st.frame_count + 1) % 2 ^ 32 < 2 ^ 32
      omega
    · exact hmovi5
    · rfl
    · exact hidxgoal
    · exact hmedia5
    · rw [hb5]
      rw [if_neg (by rw [← hthr5]; rw [hb5] at hflush; omega)]
    · rfl
theorem sumCsize_cons (f : List Nat) (fs : List (List Nat)) :
    sumCsize (f :: fs) = csize f + sumCsize fs := by
  simp [sumCsize]

theorem chunksConcat_cons (f : List Nat) (fs : List (List Nat)) :
    chunksConcat (f :: fs) = chunkBytes f ++ chunksConcat fs := by
  simp [chunksConcat]

theorem indexFrom_zero_room (off : Nat) (fs : List (List Nat)) :
    indexFrom off 0 fs = [] := by
  cases fs <;> simp [indexFrom]

set_option maxHeartbeats 1000000 in
theorem video_record_task_spec (fs : List (List Nat)) (st : RecState) (hG : GoodCore st)
    (hnd : noDrops st fs = true) :
    GoodCore (video_record_task st fs) ∧
    (video_record_task st fs).movi_size = (st.movi_size + sumCsize fs) % 2 ^ 32 ∧
    (video_record_task st fs).frame_count = (st.frame_count + fs.length) % 2 ^ 32 ∧
    (video_record_task st fs).index =
      st.index ++ indexFrom st.frame_offset (1800 - st.index.length) fs ∧
    task_end_file (video_record_task st fs) = task_end_file st ++ chunksConcat fs ∧
    (video_record_task st fs).buffer_size = st.buffer_size := by
  induction fs generalizing st with
  | nil =>
    obtain ⟨hbs, hhs, hblen, hthr, hoff, hmovi, hfc⟩ := hG
    refine ⟨⟨hbs, hhs, hblen, hthr, hoff, hmovi, hfc⟩, ?_, ?_, ?_, ?_, rfl⟩ <;>
      simp [video_record_task, sumCsize, chunksConcat, indexFrom] <;> omega
  | cons f fs ih =>
    rw [noDrops] at hnd
    rw [Bool.and_eq_true, decide_eq_true_eq] at hnd
    obtain ⟨hfit, hnd⟩ := hnd
    obtain ⟨hG1, hmv, hfc1, hidx, hmedia, hblen1, hbsz⟩ := processFrame_spec st f hG hfit
    have hrun : video_record_task st (f :: fs) = video_record_task (processFrame st f) fs := rfl
    obtain ⟨hG2, hmv2, hfc2, hidx2, hmedia2, hbsz2⟩ := ih (processFrame st f) hG1 hnd
    have hoff1 : (processFrame st f).frame_offset = (st.frame_offset + csize f) % 2 ^ 32 := by
      rw [hG1.2.2.2.2.1, hmv, hG.2.2.2.2.1]
    refine ⟨hrun ▸ hG2, ?_, ?_, ?_, ?_, ?_⟩
    · rw [hrun, hmv2, hmv, sumCsize_cons]; omega
    · rw [hrun, hfc2, hfc1]; simp only [List.length_cons]; omega
    · rw [hrun, hidx2, hidx, hoff1]
      by_cases hroom : st.index.length < 1800
      · rw [if_pos hroom]
        have hlen1 : (st.index ++ [(⟨st.frame_offset, f.length % 2 ^ 32⟩ : AviIndexEntry)]).length
            = st.index.length + 1 := by simp
        rw [hlen1]
        rw [show indexFrom st.frame_offset (1800 - st.index.length) (f :: fs) =
            ⟨st.frame_offset, f.length % 2 ^ 32⟩ ::
              indexFrom ((st.frame_offset + csize f) % 2 ^ 32) (1800 - st.index.length - 1) fs by
          rw [indexFrom, if_neg (by omega)]]
        rw [Nat.sub_sub, List.append_assoc]
        rfl
      · rw [if_neg hroom]
        have h0 : 1800 - st.index.length = 0 := by omega
        have h0' : 1800 - (st.index ++ ([] : List AviIndexEntry)).length = 0 := by
          simp; omega
        rw [h0, h0', indexFrom_zero_room, indexFrom_zero_room, List.append_nil]
    · rw [hrun, hmedia2, hmedia, chunksConcat_cons, List.append_assoc]
    · rw [hrun, hbsz2, hbsz]
/-! ## Lemmas about in-place patching (write_at) and field reads -/

theorem write_at_length (l : List Nat) (off : Nat) (b : List Nat)
    (h : off + b.length ≤ l.length) :
    (write_at l off b).length = l.length := by
  simp [write_at]; omega

theorem getElem?_write_at_of_lt (l : List Nat) (off : Nat) (b : List Nat) (i : Nat)
    (h : i < off) (hoff : off ≤ l.length) :
    (write_at l off b)[i]? = l[i]? := by
  unfold write_at
  rw [List.getElem?_append_left (by simp; omega), List.getElem?_append_left (by simp; omega)]
  exact List.getElem?_take_of_lt h

theorem getElem?_write_at_of_ge (l : List Nat) (off : Nat) (b : List Nat) (i : Nat)
    (h : off + b.length ≤ i) (hoff : off ≤ l.length) :
    (write_at l off b)[i]? = l[i]? := by
  unfold write_at
  have h1 : (l.take off).length = off := by simp; omega
  rw [List.append_assoc, List.getElem?_append_right (by omega), h1,
    List.getElem?_append_right (by omega), List.getElem?_drop]
  congr 1
  omega

theorem drop_write_at (l : List Nat) (off : Nat) (b : List Nat) (m : Nat)
    (h : off + b.length ≤ m) (hoff : off + b.length ≤ l.length) :
    (write_at l off b).drop m = l.drop m := by
  unfold write_at
  have h1 : (l.take off ++ b).length = off + b.length := by simp; omega
  rw [List.append_assoc, List.drop_append_eq_append_drop,
    List.drop_append_eq_append_drop]
  rw [List.drop_of_length_le (l := l.take off) (by simp; omega),
    List.drop_of_length_le (l := b) (by simp; omega), List.drop_drop]
  simp only [List.nil_append]
  congr 1
  simp
  omega

theorem readLe32_write_at (l : List Nat) (off v : Nat) (h : off + 4 ≤ l.length) :
    readLe32 (write_at l off (le32 v)) off = v % 2 ^ 32 := by
  have h1 : (l.take off).length = off := by simp; omega
  have key : ∀ j, j < 4 → (write_at l off (le32 v))[off + j]? = (le32 v)[j]? := by
    intro j hj
    unfold write_at
    rw [List.append_assoc, List.getElem?_append_right (by omega), h1,
      List.getElem?_append_left (by simp [le32]; omega)]
    congr 1
    omega
  have k0 := key 0 (by omega)
  have k1 := key 1 (by omega)
  have k2 := key 2 (by omega)
  have k3 := key 3 (by omega)
  rw [Nat.add_zero] at k0
  unfold readLe32
  rw [List.getD_eq_getElem?_getD, List.getD_eq_getElem?_getD, List.getD_eq_getElem?_getD,
    List.getD_eq_getElem?_getD, k0, k1, k2, k3]
  simp [le32]
  omega
theorem readLe32_write_at_of_lt (l : List Nat) (off : Nat) (b : List Nat) (p : Nat)
    (h : p + 4 ≤ off) (hoff : off ≤ l.length) :
    readLe32 (write_at l off b) p = readLe32 l p := by
  unfold readLe32
  rw [List.getD_eq_getElem?_getD, List.getD_eq_getElem?_getD, List.getD_eq_getElem?_getD,
    List.getD_eq_getElem?_getD,
    getElem?_write_at_of_lt l off b p (by omega) hoff,
    getElem?_write_at_of_lt l off b (p + 1) (by omega) hoff,
    getElem?_write_at_of_lt l off b (p + 2) (by omega) hoff,
    getElem?_write_at_of_lt l off b (p + 3) (by omega) hoff,
    ← List.getD_eq_getElem?_getD, ← List.getD_eq_getElem?_getD,
    ← List.getD_eq_getElem?_getD, ← List.getD_eq_getElem?_getD]

theorem getElem?_write_at_of_disjoint (l : List Nat) (off : Nat) (b : List Nat) (i : Nat)
    (h : i < off ∨ off + b.length ≤ i) (hoff : off + b.length ≤ l.length) :
    (write_at l off b)[i]? = l[i]? := by
  rcases h with h | h
  · exact getElem?_write_at_of_lt l off b i h (by omega)
  · exact getElem?_write_at_of_ge l off b i h (by omega)

theorem avi_index_bytes_length (idx : List AviIndexEntry) :
    (avi_index_bytes idx).length = 8 + 16 * idx.length := by
  have key : ∀ l : List AviIndexEntry,
      (((l.map fun e => tag00dc ++ le32 16 ++ le32 e.offset ++ le32 e.size).map
        List.length).sum) = 16 * l.length := by
    intro l
    induction l with
    | nil => simp
    | cons a t ih =>
      rw [List.map_cons, List.map_cons, List.sum_cons, ih]
      have : (tag00dc ++ le32 16 ++ le32 a.offset ++ le32 a.size).length = 16 := by
        simp [tag00dc, le32]
      rw [this, List.length_cons]
      omega
  unfold avi_index_bytes
  rw [List.length_append, List.length_append, List.length_flatten, key]
  simp [tagIdx1, le32]

/-- C2: Finalizing modifies only the four placeholder fields (RIFF size at
offset 4, total frame count at 48, stream length at 140, movi LIST size at
216), each overwritten in place with its final value, and appends the idx1
index after the existing end of file; every other byte already written is
unchanged. -/
theorem finalize_avi_frame_effect (file : List Nat) (fc ms : Nat) (idx : List AviIndexEntry)
    (h : 224 ≤ file.length) :
    (∀ i, i < file.length →
      (i < 4 ∨ 8 ≤ i) → (i < 48 ∨ 52 ≤ i) → (i < 140 ∨ 144 ≤ i) → (i < 216 ∨ 220 ≤ i) →
      (finalize_avi file fc ms idx)[i]? = file[i]?) ∧
    (finalize_avi file fc ms idx).length = file.length + 8 + 16 * idx.length ∧
    (finalize_avi file fc ms idx).drop file.length = avi_index_bytes idx ∧
    readLe32 (finalize_avi file fc ms idx) 4 = (file.length + 8 + 16 * idx.length - 8) % 2 ^ 32 ∧
    readLe32 (finalize_avi file fc ms idx) 48 = fc % 2 ^ 32 ∧
    readLe32 (finalize_avi file fc ms idx) 140 = fc % 2 ^ 32 ∧
    readLe32 (finalize_avi file fc ms idx) 216 = (ms + 4) % 2 ^ 32 := by
  have hib := avi_index_bytes_length idx
  have hl32 : ∀ v : Nat, (le32 v).length = 4 := by intro v; simp [le32]
  unfold finalize_avi
  set f1 := file ++ avi_index_bytes idx with hf1def
  have hf1 : f1.length = file.length + 8 + 16 * idx.length := by
    rw [hf1def, List.length_append, hib]; omega
  set b2 := le32 (f1.length - 8) with hb2
  set f2 := write_at f1 4 b2 with hf2def
  have hf2 : f2.length = f1.length := write_at_length _ _ _ (by rw [hl32]; omega)
  set f3 := write_at f2 48 (le32 fc) with hf3def
  have hf3 : f3.length = f1.length := by
    rw [hf3def, write_at_length _ _ _ (by rw [hl32]; omega), hf2]
  set f4 := write_at f3 140 (le32 fc) with hf4def
  have hf4 : f4.length = f1.length := by
    rw [hf4def, write_at_length _ _ _ (by rw [hl32]; omega), hf3]
  set f5 := write_at f4 216 (le32 (ms + 4)) with hf5def
  have hf5 : f5.length = f1.length := by
    rw [hf5def, write_at_length _ _ _ (by rw [hl32]; omega), hf4]
  refine ⟨?_, ?_, ?_, ?_, ?_, ?_, ?_⟩
  · intro i hi h4 h48 h140 h216
    rw [hf5def, getElem?_write_at_of_disjoint _ _ _ _ (by rw [hl32]; omega)
        (by rw [hl32, hf4]; omega),
      hf4def, getElem?_write_at_of_disjoint _ _ _ _ (by rw [hl32]; omega)
        (by rw [hl32, hf3]; omega),
      hf3def, getElem?_write_at_of_disjoint _ _ _ _ (by rw [hl32]; omega)
        (by rw [hl32, hf2]; omega),
      hf2def, getElem?_write_at_of_disjoint _ _ _ _ (by rw [hb2, hl32]; omega)
        (by rw [hb2, hl32]; omega),
      hf1def, List.getElem?_append_left hi]
  · rw [hf5, hf1]
  · rw [hf5def, drop_write_at _ _ _ _ (by rw [hl32]; omega) (by rw [hl32, hf4]; omega),
      hf4def, drop_write_at _ _ _ _ (by rw [hl32]; omega) (by rw [hl32, hf3]; omega),
      hf3def, drop_write_at _ _ _ _ (by rw [hl32]; omega) (by rw [hl32, hf2]; omega),
      hf2def, drop_write_at _ _ _ _ (by rw [hb2, hl32]; omega) (by rw [hb2, hl32]; omega),
      hf1def, List.drop_left]
  · rw [hf5def, readLe32_write_at_of_lt _ _ _ _ (by omega) (by rw [hf4]; omega),
      hf4def, readLe32_write_at_of_lt _ _ _ _ (by omega) (by rw [hf3]; omega),
      hf3def, readLe32_write_at_of_lt _ _ _ _ (by omega) (by rw [hf2]; omega),
      hf2def, hb2, readLe32_write_at _ _ _ (by omega), hf1]
  · rw [hf5def, readLe32_write_at_of_lt _ _ _ _ (by omega) (by rw [hf4]; omega),
      hf4def, readLe32_write_at_of_lt _ _ _ _ (by omega) (by rw [hf3]; omega),
      hf3def, readLe32_write_at _ _ _ (by rw [hf2]; omega)]
  · rw [hf5def, readLe32_write_at_of_lt _ _ _ _ (by omega) (by rw [hf4]; omega),
      hf4def, readLe32_write_at _ _ _ (by rw [hf3]; omega)]
  · rw [hf5def, readLe32_write_at _ _ _ (by rw [hf4]; omega)]
/-- Witness for `finalize_avi_frame_effect` on a concrete 224-byte file with
one index entry. -/
theorem finalize_avi_frame_effect_witness :
    224 ≤ (List.replicate 224 7 : List Nat).length ∧
    (finalize_avi (List.replicate 224 7) 1 10 [⟨0, 2⟩]).length =
      (List.replicate 224 7 : List Nat).length + 8 + 16 * ([⟨0, 2⟩] : List AviIndexEntry).length ∧
    readLe32 (finalize_avi (List.replicate 224 7) 1 10 [⟨0, 2⟩]) 48 = 1 % 2 ^ 32 := by
  have hh : (224 : Nat) ≤ (List.replicate 224 7 : List Nat).length := by
    rw [List.length_replicate]
  obtain ⟨g1, g2, g3, g4, g5, g6, g7⟩ :=
    finalize_avi_frame_effect (List.replicate 224 7) 1 10 [⟨0, 2⟩] hh
  exact ⟨hh, g2, g5⟩

theorem goodCore_start (w h : Nat) : GoodCore (recorder_start_video_state w h) := by
  have hb : (recorder_start_video_state w h).buffer = avi_header w h 10 := by
    simp only [recorder_start_video_state]
  have hhs : (recorder_start_video_state w h).header_size = (avi_header w h 10).length := by
    simp only [recorder_start_video_state]
  have hbs : (recorder_start_video_state w h).buffer_size = 3584 * 1024 := by
    simp only [recorder_start_video_state]
  have hmv : (recorder_start_video_state w h).movi_size = 0 := by
    simp only [recorder_start_video_state]
  have hfo : (recorder_start_video_state w h).frame_offset = 0 := by
    simp only [recorder_start_video_state]
  have hfc : (recorder_start_video_state w h).frame_count = 0 := by
    simp only [recorder_start_video_state]
  refine ⟨hbs, ?_, ?_, ?_, ?_, ?_, ?_⟩
  · rw [hhs, avi_header_length]
  · rw [hb, avi_header_length]
  · rw [hb, avi_header_length]
    unfold BUFFER_FLUSH_THRESHOLD
    rw [hbs]
    norm_num
  · rw [hfo, hmv]
  · rw [hmv]
    norm_num
  · rw [hfc]
    norm_num

theorem flush_first_file (st0 : RecState) (hc : st0.file_created = false)
    (hhs : st0.header_size ≤ st0.buffer.length) :
    (flush_buffer_to_sd st0).file = st0.buffer ∧
      (flush_buffer_to_sd st0).file_created = true := by
  unfold flush_buffer_to_sd
  by_cases hd : 0 < st0.buffer.length - st0.header_size <;> simp [hc, hd]
  all_goals omega

theorem flush_subsequent_file (st0 : RecState) (hc : st0.file_created = true) :
    (flush_buffer_to_sd st0).file = st0.file ++ st0.buffer.drop st0.header_size := by
  unfold flush_buffer_to_sd
  by_cases hd : 0 < st0.buffer.length - st0.header_size <;> simp [hc, hd]
  omega

set_option maxHeartbeats 2000000 in
/-- C7: Flush semantics and the run-level concatenation property.  A flush
resets the buffer write cursor to just after the header; the very first flush
creates the file and writes the header followed by the buffered frame data;
every later flush appends exactly the buffered bytes after the header.  Over
a whole recording in which no buffer write fails, storage plus the pending
buffered bytes is exactly the header followed by the non-overlapping,
order-preserving concatenation of the frame chunks, the bytes on storage are
a prefix of it, and after each threshold crossing the buffer occupancy is
back below the threshold. -/
theorem flush_behaviour (w h : Nat) (st0 : RecState) (fs : List (List Nat))
    (hnd : noDrops (recorder_start_video_state w h) fs = true) :
    (st0.header_size ≤ st0.buffer.length →
      (flush_buffer_to_sd st0).buffer = st0.buffer.take st0.header_size) ∧
    (st0.file_created = false → st0.header_size ≤ st0.buffer.length →
      (flush_buffer_to_sd st0).file = st0.buffer ∧
        (flush_buffer_to_sd st0).file_created = true) ∧
    (st0.file_created = true →
      (flush_buffer_to_sd st0).file = st0.file ++ st0.buffer.drop st0.header_size) ∧
    task_end_file (video_record_task (recorder_start_video_state w h) fs)
      = avi_header w h 10 ++ chunksConcat fs ∧
    (video_record_task (recorder_start_video_state w h) fs).buffer.length
      < BUFFER_FLUSH_THRESHOLD (video_record_task (recorder_start_video_state w h) fs) ∧
    ((video_record_task (recorder_start_video_state w h) fs).file_created = true →
      (video_record_task (recorder_start_video_state w h) fs).file
        = (avi_header w h 10 ++ chunksConcat fs).take
            (video_record_task (recorder_start_video_state w h) fs).file.length) := by
  obtain ⟨hG, hmv, hfc, hidx, hmedia, hbsz⟩ :=
    video_record_task_spec fs (recorder_start_video_state w h) (goodCore_start w h) hnd
  have hcreated0 : (recorder_start_video_state w h).file_created = false := by
    simp only [recorder_start_video_state]
  have hbuf0 : (recorder_start_video_state w h).buffer = avi_header w h 10 := by
    simp only [recorder_start_video_state]
  have hmedia0 : task_end_file (recorder_start_video_state w h) = avi_header w h 10 := by
    unfold task_end_file
    rw [hcreated0]
    simp only [Bool.false_eq_true, if_false, ite_false]
    exact hbuf0
  refine ⟨flush_buffer st0, flush_first_file st0, flush_subsequent_file st0,
    ?_, hG.2.2.2.1, ?_⟩
  · rw [hmedia, hmedia0]
  · intro hc
    have hmed := hmedia
    rw [hmedia0] at hmed
    unfold task_end_file at hmed
    rw [hc] at hmed
    simp only [if_true, ite_true] at hmed
    rw [← hmed, List.take_left]
theorem chunksConcat_length (fs : List (List Nat)) :
    (chunksConcat fs).length = sumCsize fs := by
  induction fs with
  | nil => simp [chunksConcat, sumCsize]
  | cons f t ih => rw [chunksConcat_cons, sumCsize_cons, List.length_append, ih,
      chunkBytes_length]

theorem indexFrom_spec (fs : List (List Nat)) : ∀ off room, fs.length ≤ room →
    off + sumCsize fs < 2 ^ 32 →
    (indexFrom off room fs).length = fs.length ∧
    List.Chain' (fun a b => a.offset < b.offset) (indexFrom off room fs) ∧
    ((indexFrom off room fs).map (fun e => 8 + e.size + e.size % 2)).sum = sumCsize fs ∧
    (∀ e ∈ indexFrom off room fs, off ≤ e.offset) := by
  induction fs with
  | nil =>
    intro off room hroom hsum
    refine ⟨rfl, ?_, ?_, ?_⟩ <;> simp [indexFrom, sumCsize]
  | cons f t ih =>
    intro off room hroom hsum
    rw [sumCsize_cons] at hsum
    have hflen : f.length < 2 ^ 32 := by
      unfold csize at hsum; omega
    have hmod : (off + csize f) % 2 ^ 32 = off + csize f := by
      apply Nat.mod_eq_of_lt
      have := sumCsize_cons f t
      omega
    have hroom0 : ¬ room = 0 := by simp at hroom ⊢; omega
    obtain ⟨ih1, ih2, ih3, ih4⟩ := ih (off + csize f) (room - 1)
      (by simp at hroom ⊢; omega) (by omega)
    rw [indexFrom, if_neg hroom0]
    refine ⟨?_, ?_, ?_, ?_⟩
    · rw [List.length_cons, hmod, ih1, List.length_cons]
    · rw [List.chain'_cons']
      constructor
      · intro b hb
        rw [hmod] at hb
        have hmem : b ∈ indexFrom (off + csize f) (room - 1) t := by
          cases hhd : (indexFrom (off + csize f) (room - 1) t) with
          | nil => rw [hhd] at hb; simp at hb
          | cons x xs =>
            rw [hhd] at hb
            simp at hb
            rw [← hb]
            exact List.mem_cons_self x xs
        have := ih4 b hmem
        show (⟨off, f.length % 2 ^ 32⟩ : AviIndexEntry).offset < b.offset
        have hc : 0 < csize f := by unfold csize; omega
        simp only []
        omega
      · rw [hmod]; exact ih2
    · rw [List.map_cons, List.sum_cons, hmod, ih3, sumCsize_cons]
      have : (⟨off, f.length % 2 ^ 32⟩ : AviIndexEntry).size = f.length % 2 ^ 32 := rfl
      rw [this, Nat.mod_eq_of_lt hflen]
      unfold csize
      omega
    · intro e he
      rw [hmod] at he
      rcases List.mem_cons.mp he with he | he
      · rw [he]
      · have := ih4 e he
        have hc : 0 < csize f := by unfold csize; omega
        omega
set_option maxHeartbeats 2000000 in
/-- C1 (amended): finalizing a recording of N frames in which every buffer
write succeeded, N is at most the index capacity 1800, and the total movi
size fits in `uint32_t` (the accumulators are 32-bit, so without this bound
the stored sizes and offsets wrap), yields a file whose avih total_frames
field at offset 48 and strh length field at offset 140 both read back N,
whose idx1 section is exactly the serialisation of the N recorded index
entries with strictly increasing offsets, and whose sizes plus 8 bytes of
chunk header and one pad byte per odd-length frame sum to the movi payload
size recorded in the movi LIST size field at offset 216 (the field holds
payload + 4 for the movi tag). -/
theorem recordSession_finalize (w h : Nat) (fs : List (List Nat))
    (hnd : noDrops (recorder_start_video_state w h) fs = true)
    (hN : fs.length ≤ 1800)
    (hsum : sumCsize fs + 4 < 2 ^ 32) :
    readLe32 (recordSession w h fs) 48 = fs.length ∧
    readLe32 (recordSession w h fs) 140 = fs.length ∧
    (video_record_task (recorder_start_video_state w h) fs).index.length = fs.length ∧
    List.Chain' (fun a b => a.offset < b.offset)
      (video_record_task (recorder_start_video_state w h) fs).index ∧
    ((video_record_task (recorder_start_video_state w h) fs).index.map
        (fun e => 8 + e.size + e.size % 2)).sum + 4 = readLe32 (recordSession w h fs) 216 ∧
    (recordSession w h fs).drop
        (task_end_file (video_record_task (recorder_start_video_state w h) fs)).length
      = avi_index_bytes (video_record_task (recorder_start_video_state w h) fs).index := by
  obtain ⟨hG, hmv, hfc, hidx, hmedia, hbsz⟩ :=
    video_record_task_spec fs (recorder_start_video_state w h) (goodCore_start w h) hnd
  have hidx0 : (recorder_start_video_state w h).index = [] := by
    simp only [recorder_start_video_state]
  have hfo0 : (recorder_start_video_state w h).frame_offset = 0 := by
    simp only [recorder_start_video_state]
  have hmv0 : (recorder_start_video_state w h).movi_size = 0 := by
    simp only [recorder_start_video_state]
  have hfc0 : (recorder_start_video_state w h).frame_count = 0 := by
    simp only [recorder_start_video_state]
  rw [hidx0, hfo0] at hidx
  simp only [List.length_nil, Nat.sub_zero, List.nil_append] at hidx
  rw [hmv0, Nat.zero_add] at hmv
  rw [hfc0, Nat.zero_add] at hfc
  have hcreated0 : (recorder_start_video_state w h).file_created = false := by
    simp only [recorder_start_video_state]
  have hbuf0 : (recorder_start_video_state w h).buffer = avi_header w h 10 := by
    simp only [recorder_start_video_state]
  have hmedia0 : task_end_file (recorder_start_video_state w h) = avi_header w h 10 := by
    unfold task_end_file
    rw [hcreated0]
    simp only [Bool.false_eq_true, if_false, ite_false]
    exact hbuf0
  rw [hmedia0] at hmedia
  have hmlen : (task_end_file (video_record_task (recorder_start_video_state w h) fs)).length
      = 224 + sumCsize fs := by
    rw [hmedia, List.length_append, avi_header_length, chunksConcat_length]
  obtain ⟨hi1, hi2, hi3, hi4⟩ := indexFrom_spec fs 0 1800 hN (by omega)
  obtain ⟨g1, g2, g3, g4, g5, g6, g7⟩ :=
    finalize_avi_frame_effect (task_end_file (video_record_task
      (recorder_start_video_state w h) fs))
      (video_record_task (recorder_start_video_state w h) fs).frame_count
      (video_record_task (recorder_start_video_state w h) fs).movi_size
      (video_record_task (recorder_start_video_state w h) fs).index
      (by rw [hmlen]; omega)
  have hsession : recordSession w h fs =
      finalize_avi (task_end_file (video_record_task (recorder_start_video_state w h) fs))
        (video_record_task (recorder_start_video_state w h) fs).frame_count
        (video_record_task (recorder_start_video_state w h) fs).movi_size
        (video_record_task (recorder_start_video_state w h) fs).index := rfl
  refine ⟨?_, ?_, ?_, ?_, ?_, ?_⟩
  · rw [hsession, g5, hfc]
    omega
  · rw [hsession, g6, hfc]
    omega
  · rw [hidx, hi1]
  · rw [hidx]; exact hi2
  · rw [hsession, g7, hmv, hidx, hi3]
    omega
  · rw [hsession, g3]
set_option maxRecDepth 100000 in
/-- Witness for `recordSession_finalize` on a single two-byte frame. -/
theorem recordSession_finalize_witness :
    noDrops (recorder_start_video_state 1024 768) [[65, 66]] = true ∧
    ([[65, 66]] : List (List Nat)).length ≤ 1800 ∧
    sumCsize [[65, 66]] + 4 < 2 ^ 32 ∧
    readLe32 (recordSession 1024 768 [[65, 66]]) 48 = ([[65, 66]] : List (List Nat)).length := by
  have h1 : noDrops (recorder_start_video_state 1024 768) [[65, 66]] = true := by decide
  have h2 : ([[65, 66]] : List (List Nat)).length ≤ 1800 := by decide
  have h3 : sumCsize [[65, 66]] + 4 < 2 ^ 32 := by decide
  exact ⟨h1, h2, h3, (recordSession_finalize 1024 768 [[65, 66]] h1 h2 h3).1⟩

theorem noDrops_replicate (f : List Nat) (hpar : f.length % 2 = 0)
    (hfit : 232 + f.length ≤ 3584 * 1024)
    (hfl : 3584 * 1024 * 70 / 100 ≤ 232 + f.length) :
    ∀ (k : Nat) (st : RecState), GoodCore st → st.buffer.length = 224 →
      noDrops st (List.replicate k f) = true := by
  intro k
  induction k with
  | zero => intro st _ _; rfl
  | succ n ih =>
    intro st hG hb
    rw [List.replicate_succ, noDrops, Bool.and_eq_true, decide_eq_true_eq]
    have hfit' : st.buffer.length + 8 + f.length + f.length % 2 ≤ st.buffer_size := by
      rw [hb, hG.1, hpar]; omega
    obtain ⟨hG1, hmv1, hfc1, hidx1, hmedia1, hblen1, hbsz1⟩ := processFrame_spec st f hG hfit'
    refine ⟨hfit', ih (processFrame st f) hG1 ?_⟩
    rw [hblen1, if_pos ?_]
    unfold BUFFER_FLUSH_THRESHOLD csize
    rw [hG.1, hb, hpar]
    omega


theorem indexFrom_replicate (f : List Nat) :
    ∀ (k off room : Nat), k ≤ room → off < 2 ^ 32 →
      indexFrom off room (List.replicate k f)
        = (List.range k).map
            (fun i => ⟨(off + i * csize f) % 2 ^ 32, f.length % 2 ^ 32⟩) := by
  intro k
  induction k with
  | zero => intro off room _ _; simp [indexFrom]
  | succ n ih =>
    intro off room hk hoff
    rw [List.replicate_succ, indexFrom, if_neg (by omega),
      ih ((off + csize f) % 2 ^ 32) (room - 1) (by omega) (Nat.mod_lt _ (by norm_num)),
      List.range_succ_eq_map, List.map_cons, List.map_map]
    congr 1
    · show (⟨off, f.length % 2 ^ 32⟩ : AviIndexEntry) = ⟨(off + 0 * csize f) % 2 ^ 32, _⟩
      rw [AviIndexEntry.mk.injEq]
      refine ⟨?_, rfl⟩
      omega
    · apply List.map_congr_left
      intro i hi
      simp only [Function.comp]
      rw [AviIndexEntry.mk.injEq]
      refine ⟨?_, rfl⟩
      rw [Nat.succ_mul]
      omega

/-! ## The 4 GB uint32 wrap counterexample for the finalize claim -/

theorem csize_bigframe : csize (List.replicate 3000000 (0 : Nat)) = 3000008 := by
  rw [csize, List.length_replicate]

/-- All 1800 three-megabyte frames are appended successfully: each one takes
the buffer from 224 bytes to 3000232 bytes, which crosses the 70% flush
threshold, so the (always successful) flush resets the buffer to 224 bytes
before the next frame. -/
theorem noDrops_bigframes : noDrops (recorder_start_video_state 1024 768)
    (List.replicate 1800 (List.replicate 3000000 0)) = true := by
  have hb0 : (recorder_start_video_state 1024 768).buffer.length = 224 := by
    have hbb : (recorder_start_video_state 1024 768).buffer = avi_header 1024 768 10 := by
      simp only [recorder_start_video_state]
    rw [hbb, avi_header_length]
  exact noDrops_replicate _ (by rw [List.length_replicate])
    (by rw [List.length_replicate]; norm_num) (by rw [List.length_replicate]; norm_num) 1800 _
    (goodCore_start 1024 768) hb0

theorem index_bigframes_aux :
    (video_record_task (recorder_start_video_state 1024 768)
        (List.replicate 1800 (List.replicate 3000000 0))).index
      = (List.range 1800).map
          (fun i => ⟨(0 + i * csize (List.replicate 3000000 (0 : Nat))) % 2 ^ 32,
                     (List.replicate 3000000 (0 : Nat)).length % 2 ^ 32⟩) := by
  obtain ⟨hG, hmv, hfc, hidx, hmedia, hbsz⟩ :=
    video_record_task_spec _ _ (goodCore_start 1024 768) noDrops_bigframes
  have hidx0 : (recorder_start_video_state 1024 768).index = [] := by
    simp only [recorder_start_video_state]
  have hfo0 : (recorder_start_video_state 1024 768).frame_offset = 0 := by
    simp only [recorder_start_video_state]
  rw [hidx0, hfo0] at hidx
  simp only [List.length_nil, Nat.sub_zero, List.nil_append] at hidx
  rw [indexFrom_replicate (List.replicate 3000000 0) 1800 0 1800 le_rfl (by norm_num)] at hidx
  exact hidx

/-- The recorded index of the 1800-bigframe session, with the `uint32_t`
offset arithmetic evaluated. -/
theorem index_bigframes :
    (video_record_task (recorder_start_video_state 1024 768)
        (List.replicate 1800 (List.replicate 3000000 0))).index
      = (List.range 1800).map
          (fun i => ⟨(0 + i * 3000008) % 2 ^ 32, 3000000 % 2 ^ 32⟩) := by
  rw [index_bigframes_aux]
  simp only [csize_bigframe, List.length_replicate]

set_option linter.constructorNameAsVariable false in
/-- C1 counterexample: with 1800 frames of 3,000,000 bytes each, every buffer
write succeeds and every flush succeeds (each frame crosses the 70% threshold,
so the buffer is flushed back to the 224-byte header after every frame), and
N = 1800 is exactly the index capacity; yet the total movi size
1800 * 3000008 exceeds 2^32, the `uint32_t` frame offsets wrap at frame 1432,
and the idx1 offsets are not strictly increasing: the claim fails as
stated. -/
theorem recordSession_finalize_counterexample :
    noDrops (recorder_start_video_state 1024 768)
        (List.replicate 1800 (List.replicate 3000000 0)) = true ∧
    (List.replicate 1800 (List.replicate 3000000 (0 : Nat))).length ≤ 1800 ∧
    ¬ List.Chain' (fun a b => a.offset < b.offset)
        (video_record_task (recorder_start_video_state 1024 768)
          (List.replicate 1800 (List.replicate 3000000 0))).index := by
  refine ⟨noDrops_bigframes, by rw [List.length_replicate], ?_⟩
  intro hch
  rw [index_bigframes, List.chain'_map] at hch
  rw [show (1800 : Nat) = 1799 + 1 from rfl, List.chain'_range_succ] at hch
  have h2 := hch 1431 (by norm_num)
  have e1 : (0 + 1431 * 3000008) % 2 ^ 32 = 4293011448 := by norm_num
  have e2 : (0 + (1431 + 1) * 3000008) % 2 ^ 32 = 1044160 := by norm_num
  rw [e1, e2] at h2
  exact absurd h2 (by norm_num)
theorem flush_le (st : RecState) :
    (flush_buffer_to_sd st).buffer.length ≤ st.buffer.length := by
  unfold flush_buffer_to_sd
  by_cases hc : st.file_created <;> by_cases hd : 0 < st.buffer.length - st.header_size <;>
    simp [hc, hd, List.length_take]

theorem processFrame_buffer_size (st : RecState) (f : List Nat) :
    (processFrame st f).buffer_size = st.buffer_size := by
  simp only [processFrame, storeIndexEntry]
  split_ifs <;> first | rfl | exact (flush_fields _).1

theorem processFrame_buffer_le (st : RecState) (f : List Nat)
    (hb : st.buffer.length ≤ st.buffer_size) :
    (processFrame st f).buffer.length ≤ st.buffer_size := by
  have e0 : (tag00dc : List Nat).length = 4 := by simp [tag00dc]
  have e1 : (le32 f.length).length = 4 := by simp [le32]
  simp only [processFrame, storeIndexEntry]
  split_ifs <;>
    first
      | (simp only [List.length_append, List.length_cons, List.length_nil, e0, e1] at *; omega)
      | (refine le_trans (flush_le _) ?_
         simp only [List.length_append, List.length_cons, List.length_nil, e0, e1] at *
         omega)

theorem run_capacity : ∀ (fs : List (List Nat)) (st : RecState),
    st.buffer.length ≤ st.buffer_size →
    (video_record_task st fs).buffer.length ≤ st.buffer_size := by
  intro fs
  induction fs with
  | nil => intro st hb; exact hb
  | cons f t ih =>
    intro st hb
    show (video_record_task (processFrame st f) t).buffer.length ≤ st.buffer_size
    rw [← processFrame_buffer_size st f]
    exact ih _ (by rw [processFrame_buffer_size]; exact processFrame_buffer_le st f hb)

/-- C6 (amended): during recording the staging buffer's logical write
position never exceeds its physical capacity, and `write_to_buffer` fails
exactly when a write would push past the capacity.  However, an oversized
write is not fatal to the session: the loop logs and `continue`s, so the
failed frame is dropped (possibly leaving an orphan 8-byte chunk header) and
subsequent frames are still appended (see
`video_record_task_overflow_counterexample`). -/
theorem buffer_capacity_invariant (w h : Nat) (fs : List (List Nat)) :
    (video_record_task (recorder_start_video_state w h) fs).buffer.length ≤ 3584 * 1024 ∧
    (∀ st data, write_to_buffer st data = none ↔
      st.buffer.length + data.length > st.buffer_size) := by
  constructor
  · have hb : (recorder_start_video_state w h).buffer.length
        ≤ (recorder_start_video_state w h).buffer_size := by
      have hbb : (recorder_start_video_state w h).buffer = avi_header w h 10 := by
        simp only [recorder_start_video_state]
      have hbs : (recorder_start_video_state w h).buffer_size = 3584 * 1024 := by
        simp only [recorder_start_video_state]
      rw [hbb, hbs, avi_header_length]
      norm_num
    have := run_capacity fs (recorder_start_video_state w h) hb
    have hbs : (recorder_start_video_state w h).buffer_size = 3584 * 1024 := by
      simp only [recorder_start_video_state]
    rw [hbs] at this
    exact this
  · exact write_to_buffer_none_iff
theorem le32_length (v : Nat) : (le32 v).length = 4 := by simp [le32]

theorem tag00dc_length : (tag00dc : List Nat).length = 4 := by simp [tag00dc]

theorem processFrame_payload_fail (st : RecState) (f : List Nat)
    (h1 : st.buffer.length + 8 ≤ st.buffer_size)
    (h2 : st.buffer.length + 8 + f.length > st.buffer_size) :
    processFrame st f = { st with buffer := st.buffer ++ tag00dc ++ le32 f.length } := by
  have e0 : (tag00dc : List Nat).length = 4 := by simp [tag00dc]
  have e1 : (le32 f.length).length = 4 := by simp [le32]
  simp only [processFrame]
  rw [if_neg (by omega), if_pos (by
    simp only [List.length_append, e0, e1]
    omega)]

set_option maxHeartbeats 1000000 in
/-- C6 counterexample: the first frame is one byte too large for the staging
buffer, so its payload write fails (after its 8-byte chunk header was already
appended) — yet the loop `continue`s rather than stopping: the next, small
frame is still appended and counted, refuting "after such an attempt the
session does not keep appending further frames". -/
theorem video_record_task_overflow_counterexample :
    (video_record_task (recorder_start_video_state 1024 768)
        [List.replicate 3669785 0, [1, 2]]).frame_count = 1 ∧
    (video_record_task (recorder_start_video_state 1024 768)
        [List.replicate 3669785 0, [1, 2]]).buffer.length = 242 := by
  have hb0 : (recorder_start_video_state 1024 768).buffer = avi_header 1024 768 10 := by
    simp only [recorder_start_video_state]
  have hb0l : (recorder_start_video_state 1024 768).buffer.length = 224 := by
    rw [hb0, avi_header_length]
  have hbs0 : (recorder_start_video_state 1024 768).buffer_size = 3584 * 1024 := by
    simp only [recorder_start_video_state]
  have hrun : video_record_task (recorder_start_video_state 1024 768)
      [List.replicate 3669785 0, [1, 2]]
      = processFrame (processFrame (recorder_start_video_state 1024 768)
          (List.replicate 3669785 0)) [1, 2] := by
    show List.foldl processFrame _ _ = _
    rw [List.foldl_cons, List.foldl_cons, List.foldl_nil]
  have hstep1 : processFrame (recorder_start_video_state 1024 768) (List.replicate 3669785 0)
      = { recorder_start_video_state 1024 768 with
          buffer := (recorder_start_video_state 1024 768).buffer ++ tag00dc
            ++ le32 (List.replicate 3669785 (0 : Nat)).length } :=
    processFrame_payload_fail _ _ (by rw [hb0l, hbs0]; norm_num)
      (by rw [hb0l, hbs0, List.length_replicate]; norm_num)
  have hh0 : (recorder_start_video_state 1024 768).header_size
      = (avi_header 1024 768 10).length := by
    simp only [recorder_start_video_state]
  have hfc0 : (recorder_start_video_state 1024 768).frame_count = 0 := by
    simp only [recorder_start_video_state]
  have hmv0 : (recorder_start_video_state 1024 768).movi_size = 0 := by
    simp only [recorder_start_video_state]
  have hfo0 : (recorder_start_video_state 1024 768).frame_offset = 0 := by
    simp only [recorder_start_video_state]
  have hR1 : (processFrame (recorder_start_video_state 1024 768)
      (List.replicate 3669785 0)).buffer.length = 232 := by
    rw [hstep1]
    simp only [List.length_append, hb0l, le32_length, tag00dc_length]
  have hRsize : (processFrame (recorder_start_video_state 1024 768)
      (List.replicate 3669785 0)).buffer_size = 3584 * 1024 := by
    rw [hstep1]; exact hbs0
  have hRhs : (processFrame (recorder_start_video_state 1024 768)
      (List.replicate 3669785 0)).header_size = 224 := by
    rw [hstep1]; exact hh0.trans (avi_header_length 1024 768 10)
  have hRfc : (processFrame (recorder_start_video_state 1024 768)
      (List.replicate 3669785 0)).frame_count = 0 := by
    rw [hstep1]; exact hfc0
  have hRmv : (processFrame (recorder_start_video_state 1024 768)
      (List.replicate 3669785 0)).movi_size = 0 := by
    rw [hstep1]; exact hmv0
  have hRfo : (processFrame (recorder_start_video_state 1024 768)
      (List.replicate 3669785 0)).frame_offset = 0 := by
    rw [hstep1]; exact hfo0
  have hthrR : BUFFER_FLUSH_THRESHOLD (processFrame (recorder_start_video_state 1024 768)
      (List.replicate 3669785 0)) = 2569011 := by
    rw [BUFFER_FLUSH_THRESHOLD, hRsize]
  have hGR : GoodCore (processFrame (recorder_start_video_state 1024 768)
      (List.replicate 3669785 0)) := by
    refine ⟨hRsize, hRhs, ?_, ?_, ?_, ?_, ?_⟩
    · rw [hR1]; norm_num
    · rw [hR1, hthrR]; norm_num
    · rw [hRfo, hRmv]
    · rw [hRmv]; norm_num
    · rw [hRfc]; norm_num
  have hfitR : (processFrame (recorder_start_video_state 1024 768)
        (List.replicate 3669785 0)).buffer.length + 8 + ([1, 2] : List Nat).length
        + ([1, 2] : List Nat).length % 2
      ≤ (processFrame (recorder_start_video_state 1024 768)
        (List.replicate 3669785 0)).buffer_size := by
    rw [hR1, hRsize]; decide
  obtain ⟨hG2, hmv2, hfc2, hidx2, hmedia2, hblen2, hbsz2⟩ :=
    processFrame_spec _ [1, 2] hGR hfitR
  constructor
  · rw [hrun, hfc2, hRfc]
    norm_num
  · rw [hrun, hblen2, hR1, hthrR, if_neg (by decide)]
    decide

/-! ## The camera arbiter (camera_busy / video_state.recording) -/

/-- Result of an arbiter-guarded operation (`ESP_OK` / busy rejection /
other `ESP_FAIL`). -/
inductive ArbRes
  | ok
  | busy
  | failed
deriving DecidableEq, Repr

/-- Shared arbiter state: the `camera_busy` flag and the
`video_state.recording` flag, plus two ghost flags recording which path is
currently inside its camera critical section ("holds" the camera): the photo
path between its busy-check and its final `camera_busy = false`, and the
video path while the recording task is live. -/
structure ArbState where
  camera_busy : Bool
  recording : Bool
  photo_holds : Bool
  video_holds : Bool
deriving DecidableEq, Repr

/-- Boot state: camera free, no recording. -/
def arbInit : ArbState := ⟨false, false, false, false⟩

/-- The busy-check and acquisition at the top of `recorder_capture_to_file`
(lines 202-208): reject when `camera_busy || recording`, otherwise set
`camera_busy` and enter the photo critical section. -/
def recorder_capture_enter (s : ArbState) : ArbState × ArbRes :=
  if s.camera_busy || s.recording then (s, .busy)
  else ({ s with camera_busy := true, photo_holds := true }, .ok)

/-- Every exit path of `recorder_capture_to_file` (capture failure, fopen
failure, after writing) clears `camera_busy` exactly once. -/
def recorder_capture_exit (s : ArbState) : ArbState :=
  if s.photo_holds then { s with camera_busy := false, photo_holds := false } else s

/-- `recorder_start_video`, success path (busy checks at lines 615-623, then
`camera_busy = true`, `recording = true`, task created). -/
def recorder_start_video (s : ArbState) : ArbState × ArbRes :=
  if s.recording then (s, .busy)
  else if s.camera_busy then (s, .busy)
  else ({ s with camera_busy := true, recording := true, video_holds := true }, .ok)

/-- `recorder_start_video` when `esp_camera_sensor_get` fails (lines
626-632): `camera_busy` was already set and is NOT cleared on this error
return. -/
def recorder_start_video_sensor_fail (s : ArbState) : ArbState × ArbRes :=
  if s.recording then (s, .busy)
  else if s.camera_busy then (s, .busy)
  else ({ s with camera_busy := true }, .failed)

/-- `video_record_task` terminating on its own (duration expiry or flush
failure, lines 549-611): buffers freed, `recording = false`,
`record_task_handle = NULL` — but `camera_busy` is NOT cleared. -/
def video_record_task_exit (s : ArbState) : ArbState :=
  if s.video_holds then { s with recording := false, video_holds := false } else s

/-- `recorder_stop_video` (lines 723-748): fails early if no recording is in
progress (without touching `camera_busy`); otherwise clears `recording`,
waits for the task, and clears `camera_busy`. -/
def recorder_stop_video (s : ArbState) : ArbState × ArbRes :=
  if !s.recording then (s, .failed)
  else ({ s with recording := false, video_holds := false, camera_busy := false }, .ok)

/-- The events that touch the arbiter, at function-call granularity. -/
inductive ArbEvent
  | photoEnter
  | photoExit
  | videoStart
  | videoStartSensorFail
  | videoTaskExit
  | videoStop
deriving DecidableEq, Repr

def arbStep (s : ArbState) (e : ArbEvent) : ArbState :=
  match e with
  | .photoEnter => (recorder_capture_enter s).1
  | .photoExit => recorder_capture_exit s
  | .videoStart => (recorder_start_video s).1
  | .videoStartSensorFail => (recorder_start_video_sensor_fail s).1
  | .videoTaskExit => video_record_task_exit s
  | .videoStop => (recorder_stop_video s).1

/-- All interleavings of arbiter events from boot. -/
def runArb (es : List ArbEvent) : ArbState := es.foldl arbStep arbInit

/-- The arbiter invariant: each holder implies the busy flag (and the photo
path can only hold while no recording is active), and the two paths never
hold the camera at the same time. -/
def ArbInv (s : ArbState) : Prop :=
  (s.photo_holds = true → s.camera_busy = true ∧ s.recording = false) ∧
  (s.video_holds = true → s.camera_busy = true) ∧
  ¬(s.photo_holds = true ∧ s.video_holds = true)

theorem arbStep_inv (s : ArbState) (e : ArbEvent) (h : ArbInv s) : ArbInv (arbStep s e) := by
  rcases s with ⟨cb, rec, ph, vh⟩
  cases cb <;> cases rec <;> cases ph <;> cases vh <;> cases e <;>
    (revert h
     simp only [ArbInv, arbStep, recorder_capture_enter, recorder_capture_exit,
       recorder_start_video, recorder_start_video_sensor_fail, video_record_task_exit,
       recorder_stop_video]
     decide)

/-- C4: photo capture and video recording are mutually exclusive.  In every
reachable arbiter state the two paths never hold the camera at once; while
the photo path holds the camera, `recorder_start_video` returns Busy without
changing any state (the camera is not touched); and while the video task
holds the camera, `recorder_capture_to_file`'s entry check returns Busy
without changing any state. -/
theorem camera_arbiter_mutual_exclusion (es : List ArbEvent) :
    ArbInv (runArb es) ∧
    ((runArb es).photo_holds = true →
      recorder_start_video (runArb es) = (runArb es, .busy)) ∧
    ((runArb es).video_holds = true →
      recorder_capture_enter (runArb es) = (runArb es, .busy)) := by
  have hinv : ArbInv (runArb es) := by
    unfold runArb
    have : ∀ (l : List ArbEvent) (s : ArbState), ArbInv s → ArbInv (l.foldl arbStep s) := by
      intro l
      induction l with
      | nil => intro s hs; exact hs
      | cons e t ih => intro s hs; exact ih (arbStep s e) (arbStep_inv s e hs)
    refine this es arbInit ?_
    simp only [ArbInv, arbInit]
    decide
  refine ⟨hinv, ?_, ?_⟩
  · intro hph
    obtain ⟨h1, _, _⟩ := hinv
    obtain ⟨hcb, hrec⟩ := h1 hph
    unfold recorder_start_video
    rw [hrec, hcb]
    simp
  · intro hvh
    obtain ⟨_, h2, _⟩ := hinv
    have hcb := h2 hvh
    unfold recorder_capture_enter
    rw [hcb]
    simp

/-- Witness for `camera_arbiter_mutual_exclusion`: after a photo capture
acquires the camera, starting a video is rejected as Busy with the state
unchanged. -/
theorem camera_arbiter_mutual_exclusion_witness :
    (runArb [.photoEnter]).photo_holds = true ∧
    recorder_start_video (runArb [.photoEnter]) = (runArb [.photoEnter], .busy) :=
  ⟨by decide, (camera_arbiter_mutual_exclusion [.photoEnter]).2.1 (by decide)⟩

/-- C5 (the code violates the claim): when the recording task ends on its own
(duration expiry or mid-session flush failure), `camera_busy` stays true;
`recorder_stop_video` then fails early (recording is already false) without
clearing it, and every subsequent photo capture is rejected as Busy forever.
Likewise the sensor-get failure path of `recorder_start_video` leaks
`camera_busy = true`. -/
theorem camera_busy_leak :
    (video_record_task_exit (recorder_start_video arbInit).1).camera_busy = true ∧
    recorder_capture_enter (video_record_task_exit (recorder_start_video arbInit).1)
      = (video_record_task_exit (recorder_start_video arbInit).1, .busy) ∧
    recorder_stop_video (video_record_task_exit (recorder_start_video arbInit).1)
      = (video_record_task_exit (recorder_start_video arbInit).1, .failed) ∧
    (recorder_start_video_sensor_fail arbInit).2 = .failed ∧
    (recorder_start_video_sensor_fail arbInit).1.camera_busy = true := by
  decide

/-! ## Clock sync and trigger validation (file_server.c) -/

/-- Value of a maximal leading digit run, as accumulated by `strtoull`. -/
def digitsVal (l : List Char) : Nat :=
  (l.takeWhile (fun c => c.isDigit)).foldl (fun a c => a * 10 + (c.toNat - 48)) 0

/-- C `strtoull(p, NULL, 10)`: skip whitespace, accept an optional sign, read
a digit run; no digits yields 0; out-of-range values saturate at
`ULLONG_MAX`; a negative value is negated modulo 2^64. -/
def strtoull (l : List Char) : Nat :=
  match l.dropWhile (fun c => c.isWhitespace) with
  | [] => 0
  | c :: rest =>
    if c = Char.ofNat 43 then min (digitsVal rest) (2 ^ 64 - 1)
    else if c = Char.ofNat 45 then (2 ^ 64 - min (digitsVal rest) (2 ^ 64 - 1)) % 2 ^ 64
    else min (digitsVal (c :: rest)) (2 ^ 64 - 1)

/-- Whether `pat` is a prefix of `l`. -/
def isPre : List Char → List Char → Bool
  | [], _ => true
  | _ :: _, [] => false
  | a :: as, b :: bs => a == b && isPre as bs

/-- C `strstr`: the suffix of `hay` starting at the first occurrence of
`pat`, or none. -/
def strstr : List Char → List Char → Option (List Char)
  | [], pat => if pat.isEmpty then some [] else none
  | c :: cs, pat => if isPre pat (c :: cs) then some (c :: cs) else strstr cs pat

/-- `picture_post_handler`'s body parse: find `capture:` in the body, then
`strtoull` of what follows it (`p += strlen("capture:")`). -/
def parse_capture_time (body : List Char) : Option Nat :=
  (strstr body (r"capture:").toList).map (fun rest => strtoull (rest.drop 8))

/-- Outcome of the capture-trigger validation. -/
inductive CaptureDecision
  | accepted
  | rejectedMissingCaptureTime
  | rejectedOutsideWindow (now requested : Nat)
deriving DecidableEq, Repr

/-- `CAPTURE_ACCEPT_WINDOW_MS`. -/
def CAPTURE_ACCEPT_WINDOW_MS : Nat := 5000

/-- Reinterpret a `uint64_t` value as `int64_t` (the C casts in the diff
computation). -/
def toInt64 (v : Nat) : Int :=
  if v % 2 ^ 64 < 2 ^ 63 then ((v % 2 ^ 64 : Nat) : Int)
  else ((v % 2 ^ 64 : Nat) : Int) - 2 ^ 64

/-- Wrap an integer into the `int64_t` range. -/
def wrapInt64 (x : Int) : Int := (x + 2 ^ 63) % 2 ^ 64 - 2 ^ 63

/-- Cast an `int64_t` value to `uint64_t`. -/
def intToU64 (x : Int) : Nat := (x % (2 ^ 64 : Int)).toNat

/-- The timestamp-window validation of `picture_post_handler` (lines
227-252): reject a body without `capture:` as missing_capture_time; else
compute `now = local_monotonic_ms + offset` (in `uint64_t`), the signed
difference to the requested time, and reject as outside_window — reporting
both now and the requested time — iff `|diff|` exceeds the window. -/
def picture_post_handler (body : List Char) (local_ms : Nat) (off : Int) : CaptureDecision :=
  match parse_capture_time body with
  | none => .rejectedMissingCaptureTime
  | some capture_time =>
    let ts_now := (local_ms + intToU64 off) % 2 ^ 64
    let diff := wrapInt64 (toInt64 capture_time - toInt64 ts_now)
    if diff.natAbs > CAPTURE_ACCEPT_WINDOW_MS then .rejectedOutsideWindow ts_now capture_time
    else .accepted

/-- `time_post_handler` (lines 70-131): for a JSON body (first byte `{`) scan
to the first digit and `strtoull` from there; for a plaintext body find
`time:` (or `timestamp:`), advance ONE character (`p += strchr(p, ':') ? 1 :
0` — one char from the match start, not past the colon), and `strtoull` what
remains; store and acknowledge `offset = (int64)ts - (int64)now_ms`. -/
def time_post_handler (body : List Char) (local_ms : Nat) : Option Int :=
  if body.headD (Char.ofNat 0) = Char.ofNat 123 then
    match body.dropWhile (fun c => !c.isDigit) with
    | [] => none
    | d :: ds =>
      some (wrapInt64 (toInt64 (strtoull (d :: ds)) - toInt64 (local_ms % 2 ^ 64)))
  else
    match strstr body (r"time:").toList with
    | some p => some (wrapInt64 (toInt64 (strtoull (p.drop 1)) - toInt64 (local_ms % 2 ^ 64)))
    | none =>
      match strstr body (r"timestamp:").toList with
      | some p => some (wrapInt64 (toInt64 (strtoull (p.drop 1)) - toInt64 (local_ms % 2 ^ 64)))
      | none => none

/-- `time_get_handler` (lines 134-145): the node's synced epoch time,
`esp_timer/1000 + g_time_offset_ms` in `uint64_t`. -/
def time_get_handler (local_ms : Nat) (off : Int) : Nat :=
  (local_ms + intToU64 off) % 2 ^ 64
theorem intToU64_now (local_ms : Nat) (off : Int) (h0 : 0 ≤ (local_ms : Int) + off)
    (h1 : (local_ms : Int) + off < 2 ^ 63) :
    ((local_ms + intToU64 off) % 2 ^ 64 : Nat) = ((local_ms : Int) + off).toNat := by
  unfold intToU64
  omega

theorem toInt64_small (v : Nat) (h : v < 2 ^ 63) : toInt64 v = (v : Int) := by
  unfold toInt64
  rw [Nat.mod_eq_of_lt (by omega), if_pos h]

theorem wrapInt64_small (x : Int) (h0 : -(2 ^ 63) ≤ x) (h1 : x < 2 ^ 63) :
    wrapInt64 x = x := by
  unfold wrapInt64
  omega

set_option maxHeartbeats 1000000 in
/-- C3: a capture trigger carrying timestamp t, with `now` computed as
`local_monotonic_ms + offset`, is accepted iff `|t - now| <= 5000` ms; a body
without a capture timestamp is rejected as missing_capture_time; a request
outside the window is rejected as outside_window together with both `now`
and the requested time. -/
theorem capture_trigger_validation (body : List Char) (t local_ms : Nat) (off : Int)
    (hlt : t < 2 ^ 63)
    (hnow0 : 0 ≤ (local_ms : Int) + off)
    (hnow1 : (local_ms : Int) + off < 2 ^ 63) :
    (parse_capture_time body = some t →
      ((picture_post_handler body local_ms off = .accepted ↔
        ((t : Int) - ((local_ms : Int) + off)).natAbs ≤ CAPTURE_ACCEPT_WINDOW_MS) ∧
       (CAPTURE_ACCEPT_WINDOW_MS < ((t : Int) - ((local_ms : Int) + off)).natAbs →
        picture_post_handler body local_ms off
          = .rejectedOutsideWindow ((local_ms : Int) + off).toNat t))) ∧
    (parse_capture_time body = none →
      picture_post_handler body local_ms off = .rejectedMissingCaptureTime) := by
  have hts := intToU64_now local_ms off hnow0 hnow1
  have htsn : (((local_ms : Int) + off).toNat : Nat) < 2 ^ 63 := by omega
  have hdiff : toInt64 t - toInt64 (((local_ms : Int) + off).toNat)
      = (t : Int) - ((local_ms : Int) + off) := by
    rw [toInt64_small t hlt, toInt64_small _ htsn]
    omega
  have hwrap : wrapInt64 ((t : Int) - ((local_ms : Int) + off))
      = (t : Int) - ((local_ms : Int) + off) := by
    apply wrapInt64_small <;> omega
  constructor
  · intro hp
    unfold picture_post_handler
    rw [hp]
    simp only [hts, hdiff, hwrap]
    constructor
    · by_cases hc : CAPTURE_ACCEPT_WINDOW_MS <
          ((t : Int) - ((local_ms : Int) + off)).natAbs
      · rw [if_pos (by omega)]
        constructor
        · intro hh
          exact absurd hh (by simp)
        · intro hh
          omega
      · rw [if_neg (by omega)]
        exact ⟨fun _ => by omega, fun _ => rfl⟩
    · intro hc
      rw [if_pos (by omega)]
  · intro hp
    unfold picture_post_handler
    rw [hp]

/-- Witness for `capture_trigger_validation`: with offset 0 and now = 10000,
t = 14000 is accepted, t = 15001 is rejected as outside_window carrying now
and the requested time, and a body with no `capture:` field is rejected as
missing_capture_time. -/
theorem capture_trigger_validation_witness :
    picture_post_handler (r"capture:14000").toList 10000 0 = .accepted ∧
    picture_post_handler (r"capture:15001").toList 10000 0
      = .rejectedOutsideWindow 10000 15001 ∧
    picture_post_handler (r"nothing here").toList 10000 0
      = .rejectedMissingCaptureTime := by
  refine ⟨?_, ?_, ?_⟩
  · exact ((capture_trigger_validation (r"capture:14000").toList 14000 10000 0 (by decide)
      (by decide) (by decide)).1 (by decide)).1.mpr (by decide)
  · have h := ((capture_trigger_validation (r"capture:15001").toList 15001 10000 0 (by decide)
      (by decide) (by decide)).1 (by decide)).2 (by decide)
    rw [h]
    decide
  · exact (capture_trigger_validation (r"nothing here").toList 0 10000 0 (by decide)
      (by decide) (by decide)).2 (by decide)
/-- C8 (the code violates the claim): a plaintext set-time request
`time:12345` at local monotonic time 1000 ms should store
offset = 12345 - 1000 = 11345, but the parse advances only one character
past the START of `time:` (`p += strchr(p, ':') ? 1 : 0`, despite the
comment "move past ':'"), so `strtoull` sees `ime:12345`, parses 0, and the
stored and acknowledged offset is 0 - 1000 = -1000.  (A JSON body
`{"time_ms":12345}` takes the digit-scan branch and is unaffected; the get
handler then reports `local + offset`.) -/
theorem time_post_text_parse_bug :
    time_post_handler (r"time:12345").toList 1000 = some (-1000) ∧
    (-1000 : Int) ≠ 12345 - 1000 ∧
    time_post_handler (r"{x:12345}").toList 1000 = some (12345 - 1000) ∧
    time_get_handler 1000 11345 = 12345 := by
  refine ⟨by decide, by decide, by decide, by decide⟩

/-! ## The capture queue (recorder_enqueue_capture - not present in src/) -/

/-- A queued capture request: the heap-allocated target path handed over to
the worker. -/
structure CaptureRequest where
  filepath : List Char
deriving DecidableEq, Repr

/-- Result of enqueuing a capture request. -/
inductive EnqueueResult
  | accepted
  | queueFull
deriving DecidableEq, Repr

/-- Modelled from the spec: `recorder_enqueue_capture` is declared `extern`
and called in file_server.c but its definition is not under src/.  Per spec
§4.5 the capture queue is a bounded producer/consumer channel:
`enqueue(request) -> Accepted | QueueFull`, waiting at most ≈100 ms before
reporting QueueFull instead of blocking the ingress path indefinitely.  The
model returns the new queue contents, the result, and the worst-case wait in
milliseconds. -/
def recorder_enqueue_capture (queue : List CaptureRequest) (capacity : Nat)
    (r : CaptureRequest) : List CaptureRequest × EnqueueResult × Nat :=
  if queue.length < capacity then (queue ++ [r], .accepted, 0)
  else (queue, .queueFull, 100)

/-- C9: enqueuing returns either Accepted or QueueFull, waits at most 100 ms
before reporting QueueFull, never blocks indefinitely; QueueFull leaves the
queue unchanged and only happens at capacity, and acceptance appends the
request. -/
theorem enqueue_bounded (queue : List CaptureRequest) (capacity : Nat) (r : CaptureRequest) :
    ((recorder_enqueue_capture queue capacity r).2.1 = .accepted ∨
     (recorder_enqueue_capture queue capacity r).2.1 = .queueFull) ∧
    (recorder_enqueue_capture queue capacity r).2.2 ≤ 100 ∧
    ((recorder_enqueue_capture queue capacity r).2.1 = .queueFull →
      (recorder_enqueue_capture queue capacity r).1 = queue ∧ capacity ≤ queue.length) ∧
    ((recorder_enqueue_capture queue capacity r).2.1 = .accepted →
      (recorder_enqueue_capture queue capacity r).1 = queue ++ [r]) := by
  unfold recorder_enqueue_capture
  by_cases hc : queue.length < capacity <;> simp [hc] <;> omega

/-- Witness for `enqueue_bounded` on an empty queue of capacity 2. -/
theorem enqueue_bounded_witness :
    (recorder_enqueue_capture [] 2 ⟨(r"a").toList⟩).2.1 = .accepted ∧
    (recorder_enqueue_capture [] 2 ⟨(r"a").toList⟩).1 = [] ++ [⟨(r"a").toList⟩] :=
  ⟨by decide, (enqueue_bounded [] 2 ⟨(r"a").toList⟩).2.2.2 (by decide)⟩
set_option maxRecDepth 100000 in
/-- Witness for `flush_behaviour` on a single two-byte frame. -/
theorem flush_behaviour_witness :
    noDrops (recorder_start_video_state 1024 768) [[65, 66]] = true ∧
    task_end_file (video_record_task (recorder_start_video_state 1024 768) [[65, 66]])
      = avi_header 1024 768 10 ++ chunksConcat [[65, 66]] := by
  have h1 : noDrops (recorder_start_video_state 1024 768) [[65, 66]] = true := by decide
  exact ⟨h1,
    (flush_behaviour 1024 768 (recorder_start_video_state 1024 768) [[65, 66]] h1).2.2.2.1⟩
